import Mathlib

/-!
Verification of the untrusted-code pipeline of `src/chat_handler.py`
(extractor, static validator, execution sandbox, result classifier, and the
query-processing pipeline around them), as a shallow embedding in Lean.
Definitions follow the Python source; theorems settle the specification's
claims about it.
-/

namespace ChatHandler

/-! ## Python AST fragment

The validator `is_code_safe` works on the tree produced by `ast.parse` and
visits every node with `ast.walk`. We embed the fragment of the Python AST
the validator's rules inspect: import statements (plain and from-style),
calls, attribute accesses, bare names, plus enough other constructors
(assignments, constants, binary operations, subscripts) to represent the
candidate programs appearing in the specification's scenarios. -/

inductive PyExpr : Type where
  | name (id : String)
  | attr (value : PyExpr) (attrName : String)
  | call (func : PyExpr) (args : PyExpr)
  | constant (lit : String)
  | binOp (left : PyExpr) (right : PyExpr)
  | subscript (value : PyExpr) (index : PyExpr)
  | argNil
  | argCons (head : PyExpr) (tail : PyExpr)
deriving DecidableEq

/-- The argument list of a `call` is represented by an `argNil`/`argCons`
spine inside `PyExpr` (so that all recursion over the tree is plainly
structural).  The spine cells themselves are not Python AST nodes: the walk
yields the elements they carry but never the cells. -/
def argList : List PyExpr → PyExpr
  | [] => .argNil
  | e :: es => .argCons e (argList es)

inductive PyStmt : Type where
  | importStmt (modules : List String)
  | importFrom (module : String) (names : List String)
  | assign (target : PyExpr) (value : PyExpr)
  | exprStmt (value : PyExpr)
  | raiseStmt (exc : PyExpr)
deriving DecidableEq

/-- A node yielded by `ast.walk`: either a statement or an expression. -/
inductive PyNode : Type where
  | stmt (s : PyStmt)
  | expr (e : PyExpr)
deriving DecidableEq

/-- The outcome of `ast.parse` on the candidate code: either a parse failure
(the `except` branch of `is_code_safe`) or the parsed statement list. -/
inductive PyCode : Type where
  | parseFailure (msg : String)
  | parsed (stmts : List PyStmt)
deriving DecidableEq

/-- All nodes of an expression subtree. `ast.walk` yields every node of the
tree (in breadth-first order); the validator's verdict depends only on which
nodes are visited, never on the visit order, so we enumerate nodes in
structural order.  Argument-spine cells contribute their elements' nodes
but are not nodes themselves. -/
def walkExpr : PyExpr → List PyNode
  | .name i => [.expr (.name i)]
  | .attr v a => .expr (.attr v a) :: walkExpr v
  | .call f args => .expr (.call f args) :: (walkExpr f ++ walkExpr args)
  | .constant c => [.expr (.constant c)]
  | .binOp l r => .expr (.binOp l r) :: (walkExpr l ++ walkExpr r)
  | .subscript v i => .expr (.subscript v i) :: (walkExpr v ++ walkExpr i)
  | .argNil => []
  | .argCons h t => walkExpr h ++ walkExpr t

/-- All nodes of a statement. -/
def walkStmt : PyStmt → List PyNode
  | .importStmt ms => [.stmt (.importStmt ms)]
  | .importFrom m ns => [.stmt (.importFrom m ns)]
  | .assign t v => .stmt (.assign t v) :: (walkExpr t ++ walkExpr v)
  | .exprStmt e => .stmt (.exprStmt e) :: walkExpr e
  | .raiseStmt e => .stmt (.raiseStmt e) :: walkExpr e

/-- All nodes of a parsed module, as visited by `ast.walk(tree)`. -/
def walkModule : List PyStmt → List PyNode
  | [] => []
  | s :: rest => walkStmt s ++ walkModule rest

/-! ## The static validator `is_code_safe` (src/chat_handler.py lines 155-214) -/

/-- The denylist of dangerous builtins in the call check
(line 173 of the source). -/
def dangerous_builtins : List String :=
  ["open", "exec", "eval", "compile", "__import__", "input"]

/-- The blocked root-module names (lines 184 and 196 of the source). -/
def blocked_modules : List String :=
  ["os", "sys", "subprocess", "shutil", "socket", "pathlib"]

/-- The validator rejects every import statement unconditionally (lines
164-166): the allowlist of importable modules is empty. -/
def allowedModules : List String := []

/-- Embeds `node.id.startswith("__")` on the identifier's character list. -/
def startsWithDunder (s : String) : Bool :=
  match s.data with
  | '_' :: '_' :: _ => true
  | _ => false

/-- The loop `while isinstance(root, ast.Attribute): root = root.value`
(lines 180-181): strip attribute accesses down to the root expression. -/
def attrRoot : PyExpr → PyExpr
  | .attr v _ => attrRoot v
  | e => e

/-- Lines 163-166: reject imports (both `ast.Import` and `ast.ImportFrom`). -/
def importCheck : PyNode → List String
  | .stmt (.importStmt _) => ["Import statements are not allowed."]
  | .stmt (.importFrom _ _) => ["Import statements are not allowed."]
  | _ => []

/-- Lines 168-186: for a call node, reject dangerous builtins called by bare
name, and calls whose function is an attribute chain rooted at a blocked
module name. -/
def callCheck : PyNode → List String
  | .expr (.call f _) =>
      (match f with
        | .name fn =>
            if fn ∈ dangerous_builtins then
              ["Use of builtin `" ++ fn ++ "` is not allowed."]
            else []
        | _ => []) ++
      (match f with
        | .attr v a =>
            (match attrRoot (.attr v a) with
              | .name rn =>
                  if rn ∈ blocked_modules then
                    ["Calls to module `" ++ rn ++ "` are not allowed."]
                  else []
              | _ => [])
        | _ => [])
  | _ => []

/-- Lines 188-192: reject bare `ast.Name` identifiers starting with `__`. -/
def nameCheck : PyNode → List String
  | .expr (.name id) =>
      if startsWithDunder id then ["Access to dunder names is not allowed."]
      else []
  | _ => []

/-- Lines 194-198: reject attribute accesses whose value is directly a bare
blocked module name. -/
def attributeCheck : PyNode → List String
  | .expr (.attr (.name vid) _) =>
      if vid ∈ blocked_modules then
        ["Attribute access to `" ++ vid ++ "` is not allowed."]
      else []
  | _ => []

/-- The reasons appended for one visited node, in the order of the four
`if` blocks inside the `for node in ast.walk(tree)` loop. -/
def nodeReasons (n : PyNode) : List String :=
  importCheck n ++ callCheck n ++ nameCheck n ++ attributeCheck n

/-- The full `unsafe_reasons` list accumulated by the loop of
`is_code_safe`: per visited node, the triggered reasons are appended.  A
parse failure contributes the single `Failed to parse code` reason
(lines 200-202). -/
def code_safety_reasons : PyCode → List String
  | .parseFailure msg => ["Failed to parse code: " ++ msg]
  | .parsed stmts =>
      (walkModule stmts).foldl (fun acc n => acc ++ nodeReasons n) []

/-- `is_code_safe` returns `True` exactly when no reason was collected: the
source sets `unsafe = True` precisely at each append to `unsafe_reasons`
and returns `not unsafe`. -/
def is_code_safe (c : PyCode) : Bool :=
  (code_safety_reasons c).isEmpty

example : is_code_safe (.parsed [.exprStmt (.attr (.name "df") "__class__")]) = true := by decide

example : is_code_safe (.parsed [.importStmt ["os"]]) = false := by decide

example :
    code_safety_reasons (.parsed [.importStmt ["os"],
      .exprStmt (.call (.attr (.name "os") "system") (argList [.constant "ls"]))]) =
    ["Import statements are not allowed.",
     "Calls to module `os` are not allowed.",
     "Attribute access to `os` is not allowed."] := by decide

/-! ## The extractor `extract_python_code` (lines 140-152)

Both regular-expression patterns in the source are the literal string of six
backticks, with no capture group: `re.search` succeeds exactly when the text
contains six consecutive backticks, and then `m.group(1)` raises
`IndexError: no such group`; when neither search matches, the whole response
text is returned unchanged (the last-resort branch).  We model the match of
the literal pattern as a six-backtick-run search over the character list,
and the uncaught `IndexError` as the `Except.error` case. -/

def backtickChar : Char := Char.ofNat 96

/-- Does the character list begin with six consecutive backticks? -/
def isSixBacktickPrefix : List Char → Bool
  | c1 :: c2 :: c3 :: c4 :: c5 :: c6 :: _ =>
      (c1 = backtickChar) && (c2 = backtickChar) && (c3 = backtickChar) &&
      (c4 = backtickChar) && (c5 = backtickChar) && (c6 = backtickChar)
  | _ => false

/-- Does the character list contain a run of six consecutive backticks? -/
def hasSixBacktickRun : List Char → Bool
  | [] => false
  | c :: rest => isSixBacktickPrefix (c :: rest) || hasSixBacktickRun rest

/-- `extract_python_code`: an `Except.error` models the `IndexError` that
`m.group(1)` raises on a pattern with no groups; `Except.ok` is the value
the function returns. -/
def extract_python_code (response_text : String) : Except String String :=
  if hasSixBacktickRun response_text.data then
    Except.error "IndexError: no such group"
  else
    Except.ok response_text

/-! ## The execution sandbox `execute_safe_code` (lines 217-267)

The dataframe is a table value; because `execute_safe_code` binds
`selected_df_chat.copy()` — a fresh object with equal contents — into the
namespace, aliasing matters, so tables live in an explicit heap of cells and
the caller holds a reference into it.  Candidate code is given by its
semantics: a function from the initial contents of its `df` binding to one
of four behaviors — a normal completion (the final local/global bindings
produced by `exec` and the final contents of the `df` object, reflecting
in-place mutations); a raise of an `Exception` subclass, which the source's
`except Exception` clause catches; a raise of a `BaseException` that is not
an `Exception` (`SystemExit`, `KeyboardInterrupt`, `GeneratorExit`), which
`except Exception` does NOT catch — and which validator-passing code can
reach with no imports at all, via dunder attribute introspection such as
`().__class__.__bases__[0].__subclasses__()`, since the dunder rule matches
only bare names; or divergence.  Because the source calls `exec` inline on
the caller's thread with no `try` above the `except Exception` clauses, a
diverging candidate makes the whole `execute_safe_code` call never return,
and a raised `BaseException` unwinds out of it uncaught. -/

/-- A dataframe: named columns of integers (the contents are irrelevant to
every claim; only value equality and aliasing matter). -/
abbrev Table := List (String × List Int)

/-- The heap of dataframe objects; a reference is an index. -/
abbrev Heap := List Table

/-- A Python value as far as the classifier and renderer distinguish them.
`PyValue.none` is Python's `None`. -/
inductive PyValue : Type where
  | none
  | table (t : Table)
  | figure (desc : String)
  | scalar (n : Int)
  | obj (desc : String)
deriving DecidableEq

/-- The bindings and final dataframe contents after a normal `exec` run:
`locals` is `exec_locals` after execution, `globalsAdded` are the names the
candidate added to `exec_globals` (via `global` declarations), and
`dfAfter` is the final contents of the `df` object (the private copy),
reflecting any in-place mutation. -/
structure ExecEffect : Type where
  locals : List (String × PyValue)
  globalsAdded : List (String × PyValue)
  dfAfter : Table
deriving DecidableEq

/-- How one `exec` of the candidate code behaves, as a function of the
initial contents of its `df` binding: `ok` is a normal completion; `raised`
is a raise of an `Exception` subclass (what `except Exception` catches);
`raisedBase` is a raise of a `BaseException` that is not an `Exception` —
`SystemExit`, `KeyboardInterrupt`, `GeneratorExit` — which no `except`
clause in the pipeline catches; `diverges` means the `exec` call never
returns. -/
inductive ExecBehavior : Type where
  | ok (eff : ExecEffect)
  | raised (msg : String)
  | raisedBase (msg : String)
  | diverges
deriving DecidableEq

/-- The semantics of a candidate code block: deterministic in the contents
of `df` (the restricted namespace offers the candidate no other varying
input). -/
abbrev CandidateSem := Table → ExecBehavior

/-- The outcome of one `execute_safe_code` attempt, following the
specification's `ExecutionResult` taxonomy restricted to what this function
can produce, plus `timeout`, which the specification demands but the source
never constructs. -/
inductive ExecutionResult : Type where
  | success (name : String) (value : PyValue)
  | noOutput
  | runtimeError (msg : String)
  | timeout
deriving DecidableEq

/-- Dictionary lookup in a namespace (first binding of the name wins). -/
def lookupName : List (String × PyValue) → String → Option PyValue
  | [], _ => Option.none
  | (k, v) :: rest, n => if k = n then some v else lookupName rest n

/-- One iteration body of the output scan: `if name in exec_locals` first,
`if name in exec_globals` second (lines 242-250). -/
def lookup2 (l g : List (String × PyValue)) (n : String) : Option PyValue :=
  match lookupName l n with
  | some v => some v
  | Option.none => lookupName g n

/-- The conventional output names, in the priority order of line 242. -/
def outputNames : List String := ["result", "df_out", "fig", "output"]

/-- The `for name in (...)` scan with its two `break`s: the first name bound
in locals-then-globals wins and later names are never consulted. -/
def findOutput (l g : List (String × PyValue)) : List String → Option (String × PyValue)
  | [] => Option.none
  | n :: rest =>
      match lookup2 l g n with
      | some v => some (n, v)
      | Option.none => findOutput l g rest

/-- The result classification after a normal run (lines 239-260):
`output_obj` starts as `None`, the scan may rebind it, and the
`if output_obj is None` test sends both "no name bound" and "first bound
name holds `None`" into the no-output branch; otherwise the bound name and
value are the run's result. -/
def classify (l g : List (String × PyValue)) : ExecutionResult :=
  match findOutput l g outputNames with
  | some (n, v) => if v = PyValue.none then .noOutput else .success n v
  | Option.none => .noOutput

/-- The initial `exec_globals` (lines 229-233): the restricted
`__builtins__`, the five pre-bound library handles, and `df` bound to the
given table contents (the private copy). -/
def baseGlobals (dfv : Table) : List (String × PyValue) :=
  [("__builtins__", PyValue.obj "safe_builtins"),
   ("pd", PyValue.obj "module pandas"),
   ("np", PyValue.obj "module numpy"),
   ("px", PyValue.obj "module plotly.express"),
   ("plt", PyValue.obj "module matplotlib.pyplot"),
   ("sns", PyValue.obj "module seaborn"),
   ("df", PyValue.table dfv)]

/-- What a call of `execute_safe_code` does, seen from its caller:
`returns` a result normally; lets a `BaseException` raised by the candidate
unwind through it `uncaught` (line 262 reads `except Exception`, which does
not match `BaseException`); or `neverReturns` at all (inline `exec` of a
diverging candidate). -/
inductive SandboxOutcome : Type where
  | returns (h2 : Heap) (r : ExecutionResult)
  | uncaught (h2 : Heap) (msg : String)
  | neverReturns
deriving DecidableEq

/-- `execute_safe_code` (lines 217-267).  The caller's dataframe lives at
`callerRef` in the heap; line 232 allocates a fresh copy cell and binds it
as `df`; `exec` runs inline with no timeout, so a diverging candidate means
the call never returns; a raised `Exception` is caught by the
`except Exception` clause and reported (lines 262-267); a raised
`BaseException` matches no clause and unwinds out uncaught; a normal run is
fed to the output scan and classification. -/
def execute_safe_code (sem : CandidateSem) (h : Heap) (callerRef : Nat) :
    SandboxOutcome :=
  let dfCopy := h.getD callerRef []
  let copyRef := h.length
  let h1 := h ++ [dfCopy]
  match sem dfCopy with
  | .diverges => .neverReturns
  | .raised msg => .returns h1 (.runtimeError msg)
  | .raisedBase msg => .uncaught h1 msg
  | .ok eff =>
      .returns (h1.set copyRef eff.dfAfter)
        (classify eff.locals (eff.globalsAdded ++ baseGlobals dfCopy))

/-! ## The pipeline around the sandbox -/

/-- The outcome `extract_and_execute_code` (lines 120-137) reports for an
extracted candidate: blocked by the validator (with the collected reasons),
or handed to the sandbox with the sandbox's result. -/
inductive PipelineOutcome : Type where
  | blocked (reasons : List String)
  | executed (r : ExecutionResult)
deriving DecidableEq

/-- What a call of `extract_and_execute_code` does: `returns` an outcome
(blocked, or the sandbox's result) with the final heap; lets an uncaught
`BaseException` unwind through it (lines 120-137 contain no `try` at all);
or never returns. -/
inductive PipelineBehavior : Type where
  | returns (out : PipelineOutcome) (h2 : Heap)
  | uncaught (h2 : Heap) (msg : String)
  | neverReturns
deriving DecidableEq

/-- The validate-then-execute part of `extract_and_execute_code`
(lines 132-137): `if not is_code_safe(code_block): return` runs before any
execution, so rejected code never reaches `execute_safe_code` and the heap
is untouched; the extraction step itself is `extract_python_code` above.
Divergence and an uncaught `BaseException` pass straight through: nothing
here catches or delays them. -/
def extract_and_execute_code (code : PyCode) (sem : CandidateSem)
    (h : Heap) (callerRef : Nat) : PipelineBehavior :=
  if is_code_safe code then
    match execute_safe_code sem h callerRef with
    | .returns h2 r => .returns (.executed r) h2
    | .uncaught h2 msg => .uncaught h2 msg
    | .neverReturns => .neverReturns
  else
    .returns (.blocked (code_safety_reasons code)) h

/-- What a call of `process_user_query` does, with the count of
`generate_content` calls it has made.  Its `except Exception` clause
(line 112) catches `Exception`-level failures of its body, but a
`BaseException` raised by candidate code escapes this clause too and
propagates to the caller (the UI framework). -/
inductive QueryBehavior : Type where
  | returns (out : PipelineOutcome) (calls : Nat)
  | uncaught (msg : String) (calls : Nat)
  | neverReturns
deriving DecidableEq

/-- `process_user_query` (lines 70-117): one `generate_content` call, one
`extract_and_execute_code` call, and nothing after it — in particular no
follow-up request on failure.  `first` is the response the model returns to
the single request (its extracted code's parse outcome paired with the
code's semantics); `rest` are the responses the model would return to
repair follow-ups, were any issued.  The `calls` count in the result counts
the `generate_content` calls made. -/
def process_user_query (first : PyCode × CandidateSem)
    (rest : List (PyCode × CandidateSem)) (h : Heap) (callerRef : Nat) :
    QueryBehavior :=
  match extract_and_execute_code first.1 first.2 h callerRef with
  | .returns out _ => .returns out 1
  | .uncaught _ msg => .uncaught msg 1
  | .neverReturns => .neverReturns

example :
    execute_safe_code (fun _ => .ok ⟨[("result", PyValue.scalar 3)], [], []⟩) [[]] 0 =
    .returns [[], []] (.success "result" (PyValue.scalar 3)) := by decide

example : extract_python_code "abc" = .ok "abc" := rfl

/-! ## Helper lemmas -/

/-- The accumulator of the reason-collecting loop only ever grows. -/
theorem foldl_reasons_mono (l : List PyNode) :
    ∀ init : List String, ∀ r ∈ init,
      r ∈ l.foldl (fun acc n => acc ++ nodeReasons n) init := by
  induction l with
  | nil => intro init r hr; simpa using hr
  | cons x xs ih =>
      intro init r hr
      simp only [List.foldl_cons]
      exact ih (init ++ nodeReasons x) r (List.mem_append_left _ hr)

/-- Every reason triggered by any visited node survives to the end of the
reason-collecting loop. -/
theorem mem_foldl_reasons (l : List PyNode) (n : PyNode) (r : String)
    (hn : n ∈ l) (hr : r ∈ nodeReasons n) :
    ∀ init : List String, r ∈ l.foldl (fun acc m => acc ++ nodeReasons m) init := by
  induction l with
  | nil => cases hn
  | cons x xs ih =>
      intro init
      simp only [List.foldl_cons]
      rcases List.mem_cons.mp hn with h | h
      · subst h
        exact foldl_reasons_mono xs (init ++ nodeReasons n) r
          (List.mem_append_right _ hr)
      · exact ih h (init ++ nodeReasons x)

/-- Every violation of any node of the parse tree appears in the collected
reason list of `is_code_safe`. -/
theorem mem_code_safety_reasons {stmts : List PyStmt} {n : PyNode} {r : String}
    (hn : n ∈ walkModule stmts) (hr : r ∈ nodeReasons n) :
    r ∈ code_safety_reasons (PyCode.parsed stmts) :=
  mem_foldl_reasons (walkModule stmts) n r hn hr []

/-- A code block one of whose nodes triggers a rule is reported unsafe. -/
theorem is_code_safe_false_of_reason {stmts : List PyStmt} {n : PyNode} {r : String}
    (hn : n ∈ walkModule stmts) (hr : r ∈ nodeReasons n) :
    is_code_safe (PyCode.parsed stmts) = false := by
  have hmem := mem_code_safety_reasons hn hr
  unfold is_code_safe
  cases hcs : code_safety_reasons (PyCode.parsed stmts) with
  | nil => rw [hcs] at hmem; cases hmem
  | cons a l => rfl

/-- Walk closure for expressions: every node of a subexpression that the
walk visits is itself visited by the walk of the enclosing expression. -/
theorem mem_walkExpr_trans (e0 : PyExpr) {e : PyExpr} {n : PyNode}
    (he : PyNode.expr e ∈ walkExpr e0) (hn : n ∈ walkExpr e) : n ∈ walkExpr e0 := by
  induction e0 with
  | name i =>
      simp only [walkExpr, List.mem_singleton, PyNode.expr.injEq] at he
      subst he; exact hn
  | attr v a ih =>
      simp only [walkExpr, List.mem_cons, PyNode.expr.injEq] at he ⊢
      rcases he with he | he
      · subst he; simpa [walkExpr] using hn
      · exact Or.inr (ih he)
  | call f args ihf ihargs =>
      simp only [walkExpr, List.mem_cons, List.mem_append, PyNode.expr.injEq] at he ⊢
      rcases he with he | he | he
      · subst he; simpa [walkExpr] using hn
      · exact Or.inr (Or.inl (ihf he))
      · exact Or.inr (Or.inr (ihargs he))
  | constant c =>
      simp only [walkExpr, List.mem_singleton, PyNode.expr.injEq] at he
      subst he; exact hn
  | binOp l r ihl ihr =>
      simp only [walkExpr, List.mem_cons, List.mem_append, PyNode.expr.injEq] at he ⊢
      rcases he with he | he | he
      · subst he; simpa [walkExpr] using hn
      · exact Or.inr (Or.inl (ihl he))
      · exact Or.inr (Or.inr (ihr he))
  | subscript v i ihv ihi =>
      simp only [walkExpr, List.mem_cons, List.mem_append, PyNode.expr.injEq] at he ⊢
      rcases he with he | he | he
      · subst he; simpa [walkExpr] using hn
      · exact Or.inr (Or.inl (ihv he))
      · exact Or.inr (Or.inr (ihi he))
  | argNil => simp [walkExpr] at he
  | argCons hd tl ihh iht =>
      simp only [walkExpr, List.mem_append] at he ⊢
      rcases he with he | he
      · exact Or.inl (ihh he)
      · exact Or.inr (iht he)

/-- Walk closure lifted to statements. -/
theorem mem_walkStmt_trans (s : PyStmt) {e : PyExpr} {n : PyNode}
    (he : PyNode.expr e ∈ walkStmt s) (hn : n ∈ walkExpr e) : n ∈ walkStmt s := by
  cases s with
  | importStmt ms => simp [walkStmt] at he
  | importFrom m ns => simp [walkStmt] at he
  | assign t v =>
      simp only [walkStmt, List.mem_cons, List.mem_append] at he ⊢
      rcases he with he | he | he
      · cases he
      · exact Or.inr (Or.inl (mem_walkExpr_trans t he hn))
      · exact Or.inr (Or.inr (mem_walkExpr_trans v he hn))
  | exprStmt v =>
      simp only [walkStmt, List.mem_cons] at he ⊢
      rcases he with he | he
      · cases he
      · exact Or.inr (mem_walkExpr_trans v he hn)
  | raiseStmt v =>
      simp only [walkStmt, List.mem_cons] at he ⊢
      rcases he with he | he
      · cases he
      · exact Or.inr (mem_walkExpr_trans v he hn)

/-- Walk closure lifted to the whole module. -/
theorem mem_walkModule_trans (stmts : List PyStmt) {e : PyExpr} {n : PyNode}
    (he : PyNode.expr e ∈ walkModule stmts) (hn : n ∈ walkExpr e) :
    n ∈ walkModule stmts := by
  induction stmts with
  | nil => simp [walkModule] at he
  | cons s rest ih =>
      simp only [walkModule, List.mem_append] at he ⊢
      rcases he with he | he
      · exact Or.inl (mem_walkStmt_trans s he hn)
      · exact Or.inr (ih he)

/-- An attribute chain whose root (in the sense of the source's
`while isinstance(root, ast.Attribute)` loop) is the bare name `m` contains,
among its walked nodes, a depth-one attribute access on the bare name `m`. -/
theorem chain_attr_mem (v : PyExpr) (m : String) :
    attrRoot v = PyExpr.name m →
    ∀ a : String, ∃ a2,
      PyNode.expr (PyExpr.attr (PyExpr.name m) a2) ∈
        walkExpr (PyExpr.attr v a) := by
  induction v with
  | name i =>
      intro hroot a
      simp only [attrRoot, PyExpr.name.injEq] at hroot
      subst hroot
      exact ⟨a, by simp [walkExpr]⟩
  | attr v2 a2 ih =>
      intro hroot a
      have hroot2 : attrRoot v2 = PyExpr.name m := by
        simpa [attrRoot] using hroot
      obtain ⟨a3, hmem⟩ := ih hroot2 a2
      exact ⟨a3, List.mem_cons_of_mem _ hmem⟩
  | call f args ihf ihargs => intro hroot; simp [attrRoot] at hroot
  | constant c => intro hroot; simp [attrRoot] at hroot
  | binOp l r ihl ihr => intro hroot; simp [attrRoot] at hroot
  | subscript v2 i ihv ihi => intro hroot; simp [attrRoot] at hroot
  | argNil => intro hroot; simp [attrRoot] at hroot
  | argCons hd tl ihh iht => intro hroot; simp [attrRoot] at hroot

/-- Scanning output names skips over a prefix of unbound names. -/
theorem findOutput_skip (l g : List (String × PyValue)) (pre names : List String)
    (hpre : ∀ p ∈ pre, lookup2 l g p = Option.none) :
    findOutput l g (pre ++ names) = findOutput l g names := by
  induction pre with
  | nil => rfl
  | cons p ps ih =>
      have hp := hpre p (List.mem_cons_self p ps)
      simp only [List.cons_append, findOutput, hp]
      exact ih (fun q hq => hpre q (List.mem_cons_of_mem _ hq))

/-- If no scanned name is bound, the scan comes back empty. -/
theorem findOutput_none (l g : List (String × PyValue)) (names : List String)
    (hnames : ∀ p ∈ names, lookup2 l g p = Option.none) :
    findOutput l g names = Option.none := by
  have hskip := findOutput_skip l g names [] hnames
  simpa using hskip

/-- The classifier never produces the specification's `Timeout` result. -/
theorem classify_ne_timeout (l g : List (String × PyValue)) :
    classify l g ≠ ExecutionResult.timeout := by
  unfold classify
  cases hfo : findOutput l g outputNames with
  | none => intro hco; cases hco
  | some p =>
      obtain ⟨n, v⟩ := p
      by_cases hv : v = PyValue.none <;> simp [hv]

/-- Does a statement import a module outside the allowlist (plain or
from-style)? -/
def importOutsideAllowlist : PyStmt → Bool
  | .importStmt ms => ms.any (fun m => !(allowedModules.contains m))
  | .importFrom m _ => !(allowedModules.contains m)
  | _ => false

/-! ## The claims -/

/-- Claim C1: candidate code containing an import of a module outside the
allowlist (plain or from-style; the source's allowlist is empty, so this is
any import) is reported unsafe by `is_code_safe`, and
`extract_and_execute_code` returns the blocked outcome with the collected
reasons, leaving the heap untouched: `execute_safe_code` is never invoked
on it, so execution never starts on rejected code. -/
theorem validator_blocks_disallowed_imports (stmts : List PyStmt) (s : PyStmt)
    (hs : PyNode.stmt s ∈ walkModule stmts)
    (himp : importOutsideAllowlist s = true)
    (sem : CandidateSem) (h : Heap) (callerRef : Nat) :
    is_code_safe (PyCode.parsed stmts) = false ∧
    extract_and_execute_code (PyCode.parsed stmts) sem h callerRef =
      PipelineBehavior.returns
        (PipelineOutcome.blocked (code_safety_reasons (PyCode.parsed stmts))) h := by
  have hreason : "Import statements are not allowed." ∈ nodeReasons (PyNode.stmt s) := by
    cases s with
    | importStmt ms => simp [nodeReasons, importCheck, callCheck, nameCheck, attributeCheck]
    | importFrom m ns => simp [nodeReasons, importCheck, callCheck, nameCheck, attributeCheck]
    | assign t v => simp [importOutsideAllowlist] at himp
    | exprStmt v => simp [importOutsideAllowlist] at himp
    | raiseStmt v => simp [importOutsideAllowlist] at himp
  have hsafe := is_code_safe_false_of_reason hs hreason
  refine ⟨hsafe, ?_⟩
  simp only [extract_and_execute_code, hsafe]
  rfl

/-- Witness for C1 at end-to-end scenario 2 of the specification: an
os-import statement followed by a call of os.system on the string ls. -/
theorem validator_blocks_disallowed_imports_witness :
    is_code_safe (PyCode.parsed [PyStmt.importStmt ["os"],
      PyStmt.exprStmt (PyExpr.call (PyExpr.attr (PyExpr.name "os") "system")
        (argList [PyExpr.constant "ls"]))]) = false ∧
    extract_and_execute_code
        (PyCode.parsed [PyStmt.importStmt ["os"],
          PyStmt.exprStmt (PyExpr.call (PyExpr.attr (PyExpr.name "os") "system")
            (argList [PyExpr.constant "ls"]))])
        (fun _ => ExecBehavior.ok ⟨[], [], []⟩) [[]] 0 =
      PipelineBehavior.returns (PipelineOutcome.blocked (code_safety_reasons
        (PyCode.parsed [PyStmt.importStmt ["os"],
          PyStmt.exprStmt (PyExpr.call (PyExpr.attr (PyExpr.name "os") "system")
            (argList [PyExpr.constant "ls"]))]))) [[]] :=
  validator_blocks_disallowed_imports _ (PyStmt.importStmt ["os"])
    (by decide) (by decide) _ _ _

/-- Counterexample to claim C2: `execute_safe_code` runs `exec` inline on
the caller's thread with no worker, timer, or cancellation.  On a candidate
whose execution never terminates (modelling `while True: pass`), the call
itself never returns — the caller is blocked indefinitely and receives no
result at all, in particular no `Timeout` within `timeout + ε`. -/
theorem no_timeout_counterexample :
    execute_safe_code (fun _ => ExecBehavior.diverges) [[("amount", [1, 2])]] 0 =
      SandboxOutcome.neverReturns := rfl

/-- Claim C2 amended: execution runs inline with no timeout mechanism — a
diverging candidate means the caller never receives any result, and no
returning run ever yields the specification's `Timeout` result. -/
theorem execute_has_no_timeout (sem : CandidateSem) (h : Heap) (callerRef : Nat) :
    (sem (h.getD callerRef []) = ExecBehavior.diverges →
      execute_safe_code sem h callerRef = SandboxOutcome.neverReturns) ∧
    (∀ h2 r, execute_safe_code sem h callerRef = SandboxOutcome.returns h2 r →
      r ≠ ExecutionResult.timeout) := by
  constructor
  · intro hdiv
    simp only [execute_safe_code, hdiv]
  · intro h2 r hr
    simp only [execute_safe_code] at hr
    cases hsem : sem (h.getD callerRef []) with
    | ok eff =>
        rw [hsem] at hr
        simp only [SandboxOutcome.returns.injEq] at hr
        rw [← hr.2]
        exact classify_ne_timeout _ _
    | raised msg =>
        rw [hsem] at hr
        simp only [SandboxOutcome.returns.injEq] at hr
        rw [← hr.2]
        intro hco; cases hco
    | raisedBase msg => rw [hsem] at hr; cases hr
    | diverges => rw [hsem] at hr; cases hr

/-- Witness for the amended C2 theorem on a concrete diverging candidate. -/
theorem execute_has_no_timeout_witness :
    execute_safe_code (fun _ => ExecBehavior.diverges) [[("x", [0])]] 0 =
      SandboxOutcome.neverReturns :=
  (execute_has_no_timeout (fun _ => ExecBehavior.diverges) [[("x", [0])]] 0).1 rfl

/-- Claim C3: code containing a reference to a blocked root module name
followed by an attribute chain of any depth (called or not) is rejected.
The walk visits every subexpression, so the chain's innermost depth-one
attribute access on the bare blocked name is itself a visited node, and the
direct attribute rule fires on it regardless of the chain's total depth. -/
theorem validator_rejects_blocked_root_chains (stmts : List PyStmt)
    (v : PyExpr) (a m : String)
    (hmem : PyNode.expr (PyExpr.attr v a) ∈ walkModule stmts)
    (hroot : attrRoot v = PyExpr.name m)
    (hblocked : m ∈ blocked_modules) :
    is_code_safe (PyCode.parsed stmts) = false := by
  obtain ⟨a2, hchain⟩ := chain_attr_mem v m hroot a
  have hnode := mem_walkModule_trans stmts hmem hchain
  have hreason : "Attribute access to `" ++ m ++ "` is not allowed." ∈
      nodeReasons (PyNode.expr (PyExpr.attr (PyExpr.name m) a2)) := by
    simp [nodeReasons, importCheck, callCheck, nameCheck, attributeCheck, hblocked]
  exact is_code_safe_false_of_reason hnode hreason

/-- Witness for C3 on `sys.anything.else()`: depth-two chain, called. -/
theorem validator_rejects_blocked_root_chains_witness :
    is_code_safe (PyCode.parsed [PyStmt.exprStmt
      (PyExpr.call
        (PyExpr.attr (PyExpr.attr (PyExpr.name "sys") "anything") "else")
        (argList []))]) = false :=
  validator_rejects_blocked_root_chains _
    (PyExpr.attr (PyExpr.name "sys") "anything") "else" "sys"
    (by decide) (by decide) (by decide)

/-- Claim C4: the dunder rule inspects only bare `ast.Name` nodes, so code
whose double-underscore references occur only as attribute names — here
`df.__class__`, which triggers no other rule — passes `is_code_safe` and is
handed to the execution sandbox. -/
theorem dunder_attribute_passes_validator :
    is_code_safe (PyCode.parsed [PyStmt.exprStmt
      (PyExpr.attr (PyExpr.name "df") "__class__")]) = true ∧
    extract_and_execute_code
        (PyCode.parsed [PyStmt.exprStmt (PyExpr.attr (PyExpr.name "df") "__class__")])
        (fun _ => ExecBehavior.ok ⟨[("result", PyValue.obj "type")], [], []⟩) [[]] 0 =
      PipelineBehavior.returns (PipelineOutcome.executed
        (ExecutionResult.success "result" (PyValue.obj "type"))) [[], []] := by
  exact ⟨by decide, by decide⟩

/-- Claim C5: when validation rejects, the rejection carries every violated
rule found anywhere in the parse tree, not only the first: any reason any
visited node triggers is in the final collected list. -/
theorem rejection_reasons_complete (stmts : List PyStmt) (n : PyNode) (r : String)
    (hn : n ∈ walkModule stmts) (hr : r ∈ nodeReasons n) :
    is_code_safe (PyCode.parsed stmts) = false ∧
    r ∈ code_safety_reasons (PyCode.parsed stmts) :=
  ⟨is_code_safe_false_of_reason hn hr, mem_code_safety_reasons hn hr⟩

/-- Witness for C5 at scenario 2: the violation of the last-checked rule,
the attribute access on os, is present in the reasons alongside the
earlier violation of the no-imports rule. -/
theorem rejection_reasons_complete_witness :
    is_code_safe (PyCode.parsed [PyStmt.importStmt ["os"],
      PyStmt.exprStmt (PyExpr.call (PyExpr.attr (PyExpr.name "os") "system")
        (argList [PyExpr.constant "ls"]))]) = false ∧
    "Attribute access to `os` is not allowed." ∈
      code_safety_reasons (PyCode.parsed [PyStmt.importStmt ["os"],
        PyStmt.exprStmt (PyExpr.call (PyExpr.attr (PyExpr.name "os") "system")
          (argList [PyExpr.constant "ls"]))]) :=
  rejection_reasons_complete _ (PyNode.expr (PyExpr.attr (PyExpr.name "os") "system"))
    "Attribute access to `os` is not allowed." (by decide) (by decide)

/-- Counterexample to claim C6: the first attempt raises a `NameError` and a
repaired response that would succeed stands ready in the model, yet
`process_user_query` surfaces the first attempt's `RuntimeError` after
exactly one model call: no follow-up request, no second extraction,
validation, or execution ever happens. -/
theorem no_repair_counterexample :
    process_user_query
        (PyCode.parsed [PyStmt.exprStmt (PyExpr.name "undefined_var")],
         fun _ => ExecBehavior.raised "NameError: name undefined_var is not defined")
        [(PyCode.parsed [PyStmt.assign (PyExpr.name "result") (PyExpr.constant "1")],
          fun _ => ExecBehavior.ok ⟨[("result", PyValue.scalar 1)], [], []⟩)]
        [[("amount", [1, 2])]] 0 =
      QueryBehavior.returns (PipelineOutcome.executed (ExecutionResult.runtimeError
        "NameError: name undefined_var is not defined")) 1 := by decide

/-- Claim C6 amended: `process_user_query` never issues a repair request —
its outcome is independent of whatever further responses the model holds,
and whenever it returns at all it has made exactly one model call and at
most one execution attempt. -/
theorem no_repair_attempt (first : PyCode × CandidateSem)
    (rest : List (PyCode × CandidateSem)) (h : Heap) (callerRef : Nat) :
    process_user_query first rest h callerRef =
      process_user_query first [] h callerRef ∧
    (process_user_query first rest h callerRef = QueryBehavior.neverReturns ∨
     (∃ out, process_user_query first rest h callerRef = QueryBehavior.returns out 1) ∨
     (∃ msg, process_user_query first rest h callerRef = QueryBehavior.uncaught msg 1)) := by
  refine ⟨rfl, ?_⟩
  cases hx : extract_and_execute_code first.1 first.2 h callerRef with
  | returns out h2 =>
      exact Or.inr (Or.inl ⟨out, by simp only [process_user_query, hx]⟩)
  | uncaught h2 msg =>
      exact Or.inr (Or.inr ⟨msg, by simp only [process_user_query, hx]⟩)
  | neverReturns =>
      exact Or.inl (by simp only [process_user_query, hx])

/-- A candidate that reaches `SystemExit` with no import, no blocked root
name, no denylisted builtin call, and no bare dunder name — every double
underscore is an attribute name only:
`se = ().__class__.__bases__[0].__subclasses__()[35]` (index of
`SystemExit` in CPython's subclass list of `object`), then
`raise se("boom")`.  Used for claim C7. -/
def sysExitCode : List PyStmt :=
  [PyStmt.assign (PyExpr.name "se")
    (PyExpr.subscript
      (PyExpr.call
        (PyExpr.attr
          (PyExpr.subscript
            (PyExpr.attr (PyExpr.attr (PyExpr.constant "()") "__class__") "__bases__")
            (PyExpr.constant "0"))
          "__subclasses__")
        PyExpr.argNil)
      (PyExpr.constant "35")),
   PyStmt.raiseStmt (PyExpr.call (PyExpr.name "se") (argList [PyExpr.constant "boom"]))]

/-- Counterexample to claim C7 as stated: the validator passes `sysExitCode`
(its double underscores occur only as attribute names, which is exactly the
gap claim C4 establishes), and that code raises `SystemExit` — a
`BaseException` that the `except Exception` clauses at lines 262 and 112 do
not match — so the exception raised by candidate code unwinds uncaught out
of `execute_safe_code` and out of the whole `process_user_query` call to
the caller, refuting "the sandbox never lets an exception raised by
candidate code propagate uncaught to the caller". -/
theorem uncaught_exception_counterexample :
    is_code_safe (PyCode.parsed sysExitCode) = true ∧
    execute_safe_code (fun _ => ExecBehavior.raisedBase "SystemExit: boom") [[]] 0 =
      SandboxOutcome.uncaught [[], []] "SystemExit: boom" ∧
    process_user_query
        (PyCode.parsed sysExitCode, fun _ => ExecBehavior.raisedBase "SystemExit: boom")
        [] [[]] 0 =
      QueryBehavior.uncaught "SystemExit: boom" 1 := by
  exact ⟨by decide, by decide, by decide⟩

/-- Claim C7 amended: every `Exception` the candidate raises during `exec`
is caught by the `except Exception` clause and converted into a
runtime-error result carrying its message; but a raised `BaseException`
that is not an `Exception` (such as `SystemExit`, reachable by
validator-passing code) matches no `except` clause in the pipeline and
unwinds out of `execute_safe_code` uncaught. -/
theorem sandbox_converts_errors (sem : CandidateSem) (h : Heap) (callerRef : Nat) :
    (∀ msg, sem (h.getD callerRef []) = ExecBehavior.raised msg →
      execute_safe_code sem h callerRef =
        SandboxOutcome.returns (h ++ [h.getD callerRef []])
          (ExecutionResult.runtimeError msg)) ∧
    (∀ msg, sem (h.getD callerRef []) = ExecBehavior.raisedBase msg →
      execute_safe_code sem h callerRef =
        SandboxOutcome.uncaught (h ++ [h.getD callerRef []]) msg) := by
  constructor
  · intro msg hmsg
    simp only [execute_safe_code, hmsg]
  · intro msg hmsg
    simp only [execute_safe_code, hmsg]

/-- Witness for the amended C7 theorem: a raising candidate is converted to
a runtime-error result carrying the exception's message. -/
theorem sandbox_converts_errors_witness :
    execute_safe_code (fun _ => ExecBehavior.raised "ZeroDivisionError: division by zero")
        [[("amount", [3])]] 0 =
      SandboxOutcome.returns [[("amount", [3])], [("amount", [3])]]
        (ExecutionResult.runtimeError "ZeroDivisionError: division by zero") :=
  (sandbox_converts_errors _ _ _).1 _ rfl

/-- Counterexample to claim C8 as stated: with `result` bound (to Python's
`None`) and `df_out` bound to a number, the first present name is `result`,
yet the source's `if output_obj is None` test classifies the run as
"no output" instead of making that first present binding the run's result. -/
theorem classifier_counterexample :
    lookup2 [("result", PyValue.none), ("df_out", PyValue.scalar 5)] [] "result" =
      some PyValue.none ∧
    execute_safe_code
        (fun _ => ExecBehavior.ok
          ⟨[("result", PyValue.none), ("df_out", PyValue.scalar 5)], [], []⟩)
        [[]] 0 =
      SandboxOutcome.returns [[], []] ExecutionResult.noOutput := by
  exact ⟨by decide, by decide⟩

/-- Claim C8 amended: the classifier scans `result`, `df_out`, `fig`,
`output` in that fixed order, per name consulting `exec_locals` then
`exec_globals`; the first bound name wins and later names are never
consulted; if its value is not `None` the run's result is that binding; if
the first bound value is `None`, or no name is bound at all, the run is
classified as the no-output status, which is not an error result. -/
theorem classifier_priority_order (l g : List (String × PyValue)) :
    (∀ pre post n v, outputNames = pre ++ n :: post →
      (∀ p ∈ pre, lookup2 l g p = Option.none) →
      lookup2 l g n = some v → v ≠ PyValue.none →
      classify l g = ExecutionResult.success n v) ∧
    ((∀ p ∈ outputNames, lookup2 l g p = Option.none) →
      classify l g = ExecutionResult.noOutput) ∧
    (∀ msg, ExecutionResult.noOutput ≠ ExecutionResult.runtimeError msg) := by
  refine ⟨?_, ?_, by intro msg hco; cases hco⟩
  · intro pre post n v hsplit hpre hn hv
    unfold classify
    rw [hsplit, findOutput_skip l g pre (n :: post) hpre]
    simp only [findOutput, hn]
    simp [hv]
  · intro hall
    unfold classify
    rw [findOutput_none l g outputNames hall]

/-- Witness for the amended C8 theorem: `fig` is the first bound name. -/
theorem classifier_priority_order_witness :
    classify [("fig", PyValue.figure "scatter")] [] =
      ExecutionResult.success "fig" (PyValue.figure "scatter") :=
  (classifier_priority_order [("fig", PyValue.figure "scatter")] []).1
    ["result", "df_out"] ["output"] "fig" (PyValue.figure "scatter")
    (by decide) (by decide) (by decide) (by decide)

/-- Claim C9 (code bug): both of the extractor's patterns are the literal
six-backtick string with no capture group, so no extraction ever happens —
contradicting the function's own docstring and its `fallback to any triple
backtick block` comment.  On a response that is exactly a tagged fenced
block, the whole text (fences included) is returned instead of the block's
contents; on a response containing six consecutive backticks, `m.group(1)`
raises `IndexError`.  No path flags an "unverified extraction". -/
theorem extractor_never_extracts :
    extract_python_code "```python\nresult = df.sum()\n```" =
      Except.ok "```python\nresult = df.sum()\n```" ∧
    extract_python_code "``````" = Except.error "IndexError: no such group" := by
  exact ⟨rfl, rfl⟩

/-- A candidate that mutates its `df` copy in place and returns the table it
saw; used to witness claim C10. -/
def mutSem : CandidateSem :=
  fun t => ExecBehavior.ok ⟨[("result", PyValue.table t)], [], ("hacked", [0]) :: t⟩

/-- Claim C10: line 232 binds `df` to a fresh private copy of the caller's
dataframe, so whatever the candidate mutates, the caller's cell is unchanged
after the run, and running the same candidate again on the same caller cell
yields the same classification (classification-equal results, no leakage of
state between runs). -/
theorem sandbox_copies_dataframe (sem : CandidateSem) (h : Heap) (callerRef : Nat)
    (hlt : callerRef < h.length) :
    ∀ h2 r, execute_safe_code sem h callerRef = SandboxOutcome.returns h2 r →
      h2.get? callerRef = h.get? callerRef ∧
      ∃ h3, execute_safe_code sem h2 callerRef = SandboxOutcome.returns h3 r := by
  intro h2 r hrun
  have hne : h.length ≠ callerRef := (Nat.ne_of_lt hlt).symm
  simp only [execute_safe_code] at hrun
  cases hsem : sem (h.getD callerRef []) with
  | diverges => rw [hsem] at hrun; cases hrun
  | raisedBase msg => rw [hsem] at hrun; cases hrun
  | raised msg =>
      rw [hsem] at hrun
      simp only [SandboxOutcome.returns.injEq] at hrun
      obtain ⟨hh2, hr⟩ := hrun
      subst hh2; subst hr
      have hget : (h ++ [h.getD callerRef []]).get? callerRef = h.get? callerRef :=
        List.get?_append hlt
      refine ⟨hget, ?_⟩
      have hd2 : (h ++ [h.getD callerRef []]).getD callerRef [] = h.getD callerRef [] := by
        show ((h ++ [h.getD callerRef []]).get? callerRef).getD [] =
          (h.get? callerRef).getD []
        rw [hget]
      exact ⟨_, by simp only [execute_safe_code, hd2, hsem]; rfl⟩
  | ok eff =>
      rw [hsem] at hrun
      simp only [SandboxOutcome.returns.injEq] at hrun
      obtain ⟨hh2, hr⟩ := hrun
      subst hh2; subst hr
      have hget : ((h ++ [h.getD callerRef []]).set h.length eff.dfAfter).get? callerRef =
          h.get? callerRef := by
        rw [List.get?_set_ne eff.dfAfter _ hne]
        exact List.get?_append hlt
      refine ⟨hget, ?_⟩
      have hd2 : ((h ++ [h.getD callerRef []]).set h.length eff.dfAfter).getD callerRef [] =
          h.getD callerRef [] := by
        show (((h ++ [h.getD callerRef []]).set h.length eff.dfAfter).get? callerRef).getD [] =
          (h.get? callerRef).getD []
        rw [hget]
      exact ⟨_, by simp only [execute_safe_code, hd2, hsem]; rfl⟩

/-- Witness for C10: a candidate prepends a column to its copy; the caller's
cell is untouched and a second run classifies identically. -/
theorem sandbox_copies_dataframe_witness :
    ([[("amount", [1, 2])], [("hacked", [0]), ("amount", [1, 2])]] : Heap).get? 0 =
      ([[("amount", [1, 2])]] : Heap).get? 0 ∧
    ∃ h3, execute_safe_code mutSem
        [[("amount", [1, 2])], [("hacked", [0]), ("amount", [1, 2])]] 0 =
      SandboxOutcome.returns h3
        (ExecutionResult.success "result" (PyValue.table [("amount", [1, 2])])) :=
  sandbox_copies_dataframe mutSem [[("amount", [1, 2])]] 0 (by decide)
    [[("amount", [1, 2])], [("hacked", [0]), ("amount", [1, 2])]]
    (ExecutionResult.success "result" (PyValue.table [("amount", [1, 2])]))
    (by decide)

end ChatHandler
